import Mathlib

/-!
Shallow embedding of the IT-Workflow-Chatbot triage/automation core.

Sources embedded here:
- `src/src/agents/AgentTriageRouter.js` (routing, confidence, coordinator, analytics)
- `src/unnamed/part_010` (`IntentDetector.detect`)
- `src/unnamed/part_006` (`AgentService`: `monitorSLA`, `scanAccessRequests`)
- `src/unnamed/part_001` (`assessAccessRisk`)
- `src/unnamed/part_009` (`BaseAgent.execute`)

JS numbers are modelled as exact rationals (the scoring constants 0.1/0.2/0.3/
0.4/0.6/0.5/0.7 and the SLA hour arithmetic are exactly representable and the
claims are about the algorithmic structure, not float rounding).  JS strings
are Lean `String`s; `toLowerCase`, `includes` and `trim` are modelled by the
character-list helpers below, which agree with the JS semantics on the ASCII
texts the program manipulates.  Absent / `undefined` JS fields are modelled by
`Option`.
-/

namespace ITWorkflow

/-- Model of JS `String.prototype.toLowerCase` (ASCII). -/
def strLower (s : String) : String := ⟨s.data.map Char.toLower⟩

/-- `startsWithChars hay pat`: `pat` is a prefix of `hay` (character lists). -/
def startsWithChars : List Char → List Char → Bool
  | _, [] => true
  | [], _ :: _ => false
  | a :: as, b :: bs => a = b && startsWithChars as bs

/-- `infixChars hay pat`: `pat` occurs contiguously inside `hay`. -/
def infixChars : List Char → List Char → Bool
  | hay, pat =>
    startsWithChars hay pat ||
      match hay with
      | [] => false
      | _ :: t => infixChars t pat

/-- Model of JS `String.prototype.includes`. -/
def strIncludes (s pat : String) : Bool := infixChars s.data pat.data

/-- Model of JS `String.prototype.trim` (ASCII whitespace). -/
def strTrim (s : String) : String :=
  ⟨((s.data.dropWhile Char.isWhitespace).reverse.dropWhile Char.isWhitespace).reverse⟩

/-! ## Data model shared by router and coordinator -/

/-- Result object produced by `BaseAgent.execute` (part_009): on success
`{success:true, agent, input, output}`, on a thrown/rejected `run`
`{success:false, agent, input, error}`.  The wall-clock `timestamp` field is
not modelled. -/
structure ExecResult where
  success : Bool
  agent : String
  input : String
  output : Option String
  error : Option String
  deriving Repr, DecidableEq

/-- The context object threaded through routing and execution.  Only the
fields the embedded code reads or writes are modelled; absent fields are
`none` / `false` (JS `undefined` is falsy). -/
structure Context where
  priority : Option String := none
  userRole : Option String := none
  primaryAgentResult : Option ExecResult := none
  multiAgentExecution : Bool := false
  deriving Repr, DecidableEq

/-- Model of the JS object spread `{...a, ...b}` used by `BaseAgent.execute`
for `mergedContext`: fields present in `b` win, otherwise `a`'s survive. -/
def mergeCtx (a b : Context) : Context :=
  { priority := b.priority.orElse (fun _ => a.priority)
    userRole := b.userRole.orElse (fun _ => a.userRole)
    primaryAgentResult := b.primaryAgentResult.orElse (fun _ => a.primaryAgentResult)
    multiAgentExecution := b.multiAgentExecution || a.multiAgentExecution }

/-- An agent as the router and coordinator see it: a `name`, the
`canHandle(input, context)` capability test, the `run` body (which may throw,
modelled by `Except`), and the construction-time `this.context`.  The concrete
`run` bodies call the external text-generation service and are therefore
abstract functions here. -/
structure Agent where
  name : String
  canHandle : String → Context → Bool
  run : String → Context → Except String String
  context : Context := {}

/-- `BaseAgent.execute` (part_009, lines 44-64): merges contexts, runs, and
captures a thrown error as a `{success:false, error}` result instead of
propagating it. -/
def baseExecute (a : Agent) (input : String) (ctx : Context) : ExecResult :=
  match a.run input (mergeCtx a.context ctx) with
  | .ok out => ⟨true, a.name, input, some out, none⟩
  | .error e => ⟨false, a.name, input, none, some e⟩

/-! ## AgentTriageRouter (src/src/agents/AgentTriageRouter.js) -/

/-- The `agentKeywords` table of `countKeywordMatches`. -/
def agentKeywords (name : String) : List String :=
  if name = "EscalationAgent" then
    ["urgent", "critical", "emergency", "escalate", "production", "outage"]
  else if name = "PerformanceMonitoringAgent" then
    ["performance", "slow", "monitor", "metrics", "cpu", "memory", "optimization"]
  else if name = "KnowledgeBaseAgent" then
    ["how to", "procedure", "policy", "documentation", "guide", "help", "information"]
  else if name = "ITSupportAgent" then
    ["error", "bug", "not working", "computer", "software", "hardware", "technical"]
  else if name = "AccessManagementAgent" then
    ["access", "permission", "login", "account", "authorize", "security"]
  else if name = "OnboardingAgent" then
    ["onboarding", "new employee", "setup", "welcome", "checklist", "hire"]
  else []

/-- `countKeywordMatches`: number of the agent's specialization keywords that
occur in the lowercased input. -/
def countKeywordMatches (name : String) (input : String) : Nat :=
  ((agentKeywords name).filter (fun kw => strIncludes (strLower input) kw)).length

/-- `getHistoricalSuccess`: fixed success-rate table, neutral prior 0.80. -/
def getHistoricalSuccess (name : String) : ℚ :=
  if name = "ITSupportAgent" then 0.85
  else if name = "AccessManagementAgent" then 0.90
  else if name = "OnboardingAgent" then 0.88
  else if name = "EscalationAgent" then 0.92
  else 0.80

/-- `calculateConfidence(agent, input, context)` (lines 132-153):
`0.5` base, `+0.1` per keyword match, `+0.3` for high priority on the
escalation agent, `+0.4` for a new hire on the onboarding agent,
`+0.2 ×` historical success, capped at `1.0` by `Math.min`. -/
def calculateConfidence (name : String) (input : String) (ctx : Context) : ℚ :=
  let c1 : ℚ := 0.5 + (countKeywordMatches name input : ℚ) * 0.1
  let c2 : ℚ := c1 + (if ctx.priority = some "high" ∧ name = "EscalationAgent" then 0.3 else 0)
  let c3 : ℚ := c2 + (if ctx.userRole = some "new_hire" ∧ name = "OnboardingAgent" then 0.4 else 0)
  let c4 : ℚ := c3 + getHistoricalSuccess name * 0.2
  min c4 1

/-- Router configuration (constructor defaults). -/
structure RouterConfig where
  enableMultiAgent : Bool := true
  confidenceThreshold : ℚ := 0.7
  maxAgents : Nat := 2

def defaultRouterConfig : RouterConfig := {}

/-- A scored candidate as pushed by `analyzeRouting`. -/
structure Candidate where
  agent : Agent
  confidence : ℚ
  reasoning : String

/-- `getRoutingReasoning(agent, input, context)`. -/
def getRoutingReasoning (a : Agent) (input : String) (ctx : Context) : String :=
  let n := a.name
  let reasons1 : List String :=
    if a.canHandle input ctx then [s!"{n} can handle this type of request"] else []
  let keywordCount := countKeywordMatches a.name input
  let reasons2 : List String :=
    if 0 < keywordCount then
      reasons1 ++ [s!"Found {keywordCount} relevant keywords for {n}"]
    else reasons1
  let reasons3 : List String :=
    if ctx.priority = some "high" ∧ a.name = "EscalationAgent" then
      reasons2 ++ ["High priority issue requires escalation expertise"]
    else reasons2
  String.intercalate "; " reasons3

/-- `generateRoutingReasoning(candidates, selectedAgents)`.  The JS
`c.agent === selectedAgents[0]` object-identity test is modelled by name
equality. -/
def generateRoutingReasoning (candidates : List Candidate) (selected : List Agent) : String :=
  if selected.length = 1 then
    match selected.head? with
    | none => "Single agent routing: Fallback agent selected"
    | some a =>
      match candidates.find? (fun c => c.agent.name = a.name) with
      | some c => s!"Single agent routing: {c.reasoning}"
      | none => "Single agent routing: Fallback agent selected"
  else
    let names := String.intercalate ", " (selected.map (·.name))
    s!"Multi-agent routing: {names} selected for collaborative handling"

/-- The routing decision object returned by `analyzeRouting`. -/
structure RoutingDecision where
  agents : List Agent
  candidates : List Candidate
  reasoning : String
  confidence : ℚ

/-- The survivor test of the `analyzeRouting` loop:
`canHandle && confidence >= confidenceThreshold`. -/
def survives (cfg : RouterConfig) (input : String) (ctx : Context) (a : Agent) : Bool :=
  a.canHandle input ctx && decide (cfg.confidenceThreshold ≤ calculateConfidence a.name input ctx)

/-- `analyzeRouting(input, context)` (lines 91-127): score every registered
agent, keep survivors, sort by confidence descending (JS stable sort),
truncate to `maxAgents`, and fall back to the designated fallback agent when
nothing survives. -/
def analyzeRouting (agents : List Agent) (fallback : Agent) (cfg : RouterConfig)
    (input : String) (ctx : Context) : RoutingDecision :=
  let candidates : List Candidate :=
    (agents.filter (survives cfg input ctx)).map
      (fun a => ⟨a, calculateConfidence a.name input ctx, getRoutingReasoning a input ctx⟩)
  let sorted := candidates.insertionSort (fun x y => y.confidence ≤ x.confidence)
  let selected := (sorted.take cfg.maxAgents).map (·.agent)
  let selectedFinal := if selected.isEmpty then [fallback] else selected
  { agents := selectedFinal
    candidates := sorted
    reasoning := generateRoutingReasoning sorted selectedFinal
    confidence :=
      match sorted.head? with
      | none => 0.5
      | some c => if c.confidence = 0 then 0.5 else c.confidence }

/-- `canHandle` of `ITSupportAgent` (src/src/agents/ITSupportAgent.js,
lines 39-47). -/
def itSupportCanHandle (input : String) (_ : Context) : Bool :=
  let supportKeywords : List String :=
    ["error", "bug", "crash", "not working", "broken", "failed", "issue",
     "computer", "laptop", "software", "hardware", "network", "wifi",
     "login", "password", "access", "printer", "email", "vpn"]
  supportKeywords.any (fun kw => strIncludes (strLower input) kw)

/-- The designated fallback handler: `this.fallbackAgent = new
ITSupportAgent(config.fallback)`.  Its `run` invokes the external
text-generation service (an external collaborator), modelled abstractly. -/
def triageFallback : Agent :=
  { name := "ITSupportAgent"
    canHandle := itSupportCanHandle
    run := fun _ _ => Except.error "external text-generation call" }

/-! ## Execution coordinator (AgentTriageRouter.executeMultiAgent / route) -/

/-- The enriched context built for secondary agents:
`{...context, primaryAgentResult, multiAgentExecution: true}`. -/
def enrichContext (ctx : Context) (primaryResult : ExecResult) : Context :=
  { ctx with primaryAgentResult := some primaryResult, multiAgentExecution := true }

/-- `executeMultiAgent(agents, input, context)` (lines 182-206): await the
primary agent first, then run the secondary agents with the enriched context
and join on all of them; results are pushed in selection order. -/
def executeMultiAgent (agents : List Agent) (input : String) (ctx : Context) :
    List ExecResult :=
  match agents with
  | [] => []
  | primary :: rest =>
    let primaryResult := baseExecute primary input ctx
    primaryResult :: rest.map (fun a => baseExecute a input (enrichContext ctx primaryResult))

/-- Collapse a list of optional slots, failing if any slot is still empty
(the state of a `Promise.all` join before every promise settled). -/
def seqOptions : List (Option α) → Option (List α)
  | [] => some []
  | none :: _ => none
  | some a :: rest => (seqOptions rest).map (a :: ·)

/-- Settle the jobs one at a time in completion order, storing each settled
value in the slot of its index. -/
def fillSlots (jobs : List α) (slots : List (Option α)) (completionOrder : List Nat) :
    List (Option α) :=
  completionOrder.foldl (fun s i => s.set i jobs[i]?) slots

/-- `Promise.all` over the secondary invocations: each job settles at some
point of the (arbitrary) completion order, and its value is stored in the
slot of its index; the join returns the slots in index order, not completion
order. -/
def promiseAll (jobs : List α) (completionOrder : List Nat) : Option (List α) :=
  seqOptions (fillSlots jobs (List.replicate jobs.length (none : Option α)) completionOrder)

/-- `executeMultiAgent` with the completion order of the secondary agents
made explicit, to state that the fan-in is completion-order independent. -/
def executeMultiAgentSched (agents : List Agent) (input : String) (ctx : Context)
    (completionOrder : List Nat) : Option (List ExecResult) :=
  match agents with
  | [] => none
  | primary :: rest =>
    let primaryResult := baseExecute primary input ctx
    let jobs := rest.map (fun a => baseExecute a input (enrichContext ctx primaryResult))
    (promiseAll jobs completionOrder).map (fun secondary => primaryResult :: secondary)

/-- The aggregate object returned by `route(input, context)` (lines 36-90).
The `try` block returns `{success: true, ...}`; the `catch` branch
(`{success: false, error}`) is reachable only through an exception escaping
`analyzeRouting`/`execute`, and `BaseAgent.execute` captures its own
exceptions, so the embedded `route` always reports success. -/
structure RouteResult where
  success : Bool
  results : List ExecResult
  agentsUsed : List String
  primaryResult : Option ExecResult

/-- The complete router state built by the constructor. -/
structure Router where
  agents : List Agent
  fallbackAgent : Agent
  config : RouterConfig

/-- `route(input, context)`: analyze, then single-agent, multi-agent or
fallback execution (the logging side effect and wall-clock timing are not
modelled). -/
def route (r : Router) (input : String) (ctx : Context) : RouteResult :=
  let rd := analyzeRouting r.agents r.fallbackAgent r.config input ctx
  let results :=
    match rd.agents with
    | [a] => [baseExecute a input ctx]
    | agents =>
      if 1 < agents.length ∧ r.config.enableMultiAgent then
        executeMultiAgent agents input ctx
      else
        [baseExecute r.fallbackAgent input ctx]
  { success := true
    results := results
    agentsUsed := results.map (·.agent)
    primaryResult := results.head? }

/-! ## Routing analytics (AgentTriageRouter.getRoutingAnalytics) -/

/-- An entry of `this.routingHistory` (only the fields `getRoutingAnalytics`
reads are modelled). -/
structure LogEntry where
  input : String
  results : List ExecResult
  executionTime : ℚ
  deriving Repr, DecidableEq

/-- Sum of the `executionTime` fields (the `reduce` in the JS source). -/
def sumExecTime (history : List LogEntry) : ℚ :=
  history.foldl (fun s r => s + r.executionTime) 0

/-- Number of history entries whose results all succeeded. -/
def successCount (history : List LogEntry) : Nat :=
  (history.filter (fun r => r.results.all (·.success))).length

/-- Insert-or-increment on the `agentUsage` accumulator (JS object keyed by
agent name, keys in first-insertion order). -/
def bumpUsage : List (String × Nat) → String → List (String × Nat)
  | [], name => [(name, 1)]
  | (k, v) :: rest, name =>
    if k = name then (k, v + 1) :: rest else (k, v) :: bumpUsage rest name

/-- Per-agent usage counts over the whole history. -/
def agentUsageOf (history : List LogEntry) : List (String × Nat) :=
  history.foldl (fun m r => r.results.foldl (fun m' res => bumpUsage m' res.agent) m) []

/-- The object returned by `getRoutingAnalytics`: for an empty history the
source returns the bare `{total: 0}` (all other keys absent, modelled by
`none`); otherwise all aggregates are present. -/
structure AnalyticsReport where
  total : Nat
  avgExecutionTime : Option ℚ
  successRate : Option ℚ
  agentUsage : Option (List (String × Nat))
  recentRoutings : Option (List LogEntry)
  deriving Repr, DecidableEq

/-- `getRoutingAnalytics()` (lines 271-292). -/
def getRoutingAnalytics (history : List LogEntry) : AnalyticsReport :=
  let total := history.length
  if total = 0 then ⟨0, none, none, none, none⟩
  else
    ⟨total,
     some (sumExecTime history / (total : ℚ)),
     some ((successCount history : ℚ) / (total : ℚ)),
     some (agentUsageOf history),
     some (history.drop (total - 10))⟩

/-! ## IntentDetector (src/unnamed/part_010) -/

/-- One entry of the `this.intents` table.  A JS regex is modelled as an
abstract matcher `String → Option (Option String)`: `none` means no match,
`some g` means a match whose first capture group is `g` (`none` when the
pattern has no capture group or it did not participate). -/
structure IntentDef where
  name : String
  keywords : List String
  patterns : List (String → Option (Option String))
  confidence : ℚ

/-- The `bestMatch` accumulator of `detect`. -/
structure BestMatch where
  intent : String
  confidence : ℚ
  entities : Option String
  deriving Repr, DecidableEq

/-- Scan the patterns in order and stop at the first match (the `break` in
the JS loop). -/
def firstPatternMatch : List (String → Option (Option String)) → String →
    Option (Option String)
  | [], _ => none
  | p :: rest, message =>
    match p message with
    | some g => some g
    | none => firstPatternMatch rest message

/-- The score the `detect` loop body computes for one intent definition:
`((#keywords present in the lowercased text / #keywords) × 0.4 +
(0.6 on a pattern match)) × baseConfidence`. -/
def intentScore (d : IntentDef) (message : String) : ℚ :=
  let keywordMatches :=
    (d.keywords.filter (fun kw => strIncludes (strLower message) (strLower kw))).length
  let score0 : ℚ := ((keywordMatches : ℚ) / (d.keywords.length : ℚ)) * 0.4
  let score1 : ℚ := score0 + (if (firstPatternMatch d.patterns message).isSome then 0.6 else 0)
  score1 * d.confidence

/-- The entity the loop body extracts for one intent definition: the first
capture group of the first matching pattern, trimmed, when it is truthy. -/
def intentEntity (d : IntentDef) (message : String) : Option String :=
  match firstPatternMatch d.patterns message with
  | some (some s) => if s = "" then none else some (strTrim s)
  | _ => none

/-- The body of the `detect` loop: replace the running best match exactly
when `score > bestMatch.confidence`. -/
def detectUpd (message : String) (bestMatch : BestMatch) (d : IntentDef) : BestMatch :=
  let score := intentScore d message
  if bestMatch.confidence < score then
    ⟨d.name, score, intentEntity d message⟩
  else bestMatch

/-- `IntentDetector.detect(message)` (part_010, lines 75-118): fold over the
intent definitions in author-defined order, keeping the strictly best score;
start from `{intent:'unknown', confidence:0, entities:{}}`. -/
def detect (intents : List IntentDef) (message : String) : BestMatch :=
  intents.foldl (detectUpd message) ⟨"unknown", 0, none⟩

/-- Spec-side selection, written from the claim's words rather than from the
source: the intent with the maximum total wins, ties broken in favor of the
earlier definition, and a message whose total is positive for no intent
yields `unknown` with confidence 0 and no entity. -/
def detectSpec (intents : List IntentDef) (message : String) : BestMatch :=
  match intents with
  | [] => ⟨"unknown", 0, none⟩
  | d :: rest =>
    let best := detectSpec rest message
    if best.confidence ≤ intentScore d message ∧ 0 < intentScore d message then
      ⟨d.name, intentScore d message, intentEntity d message⟩
    else best

/-! ## AgentService (src/unnamed/part_006) -/

/-- A ticket row as `monitorSLA` sees it.  `created_at` is the parsed
timestamp in milliseconds: `none` models a record whose `created_at` is
absent or unparseable, for which `new Date(...).getTime()` yields `NaN` and
every `>` comparison is false.  `escalation_level` is `none` when the column
is `undefined` (the strict `=== 0` guard then fails, while `|| 0` reads 0).
Columns the sweep never touches are omitted. -/
structure Ticket where
  id : Nat
  priority : String
  status : String
  created_at : Option ℚ
  escalation_level : Option Nat
  escalated_at : Option ℚ
  deriving Repr, DecidableEq

/-- `this.config.slaHours[(t.priority || 'medium').toLowerCase()] || 24`
with the default `{high: 4, medium: 24, low: 48}`. -/
def slaFor (priority : String) : ℚ :=
  let key := strLower (if priority = "" then "medium" else priority)
  if key = "high" then 4 else if key = "medium" then 24
  else if key = "low" then 48 else 24

/-- The escalation condition of the `monitorSLA` loop:
`ageHours > sla && (!t.escalated_at || t.escalation_level === 0)`. -/
def escalCond (now : ℚ) (t : Ticket) : Bool :=
  (match t.created_at with
   | none => false
   | some created => decide (slaFor t.priority < (now - created) / 3600000)) &&
  (t.escalated_at.isNone || decide (t.escalation_level = some 0))

/-- The `ticketService.updateTicket` call of one sweep iteration:
`escalation_level = (t.escalation_level || 0) + 1`, `escalated_at = now`,
priority bumped only from `'medium'` to `'high'`, status kept `'open'`. -/
def escalateUpdate (now : ℚ) (t : Ticket) : Ticket :=
  { t with
    escalation_level := some (t.escalation_level.getD 0 + 1)
    escalated_at := some now
    priority := if t.priority = "medium" then "high" else t.priority
    status := "open" }

/-- One iteration of the `monitorSLA` loop over a single ticket. -/
def slaStep (now : ℚ) (t : Ticket) : Ticket :=
  if escalCond now t then escalateUpdate now t else t

/-- The result object of the sweep, together with the warnings the sweep
logs (the source logs none) and the post-sweep ticket states. -/
structure SlaSweepResult where
  tickets : List Ticket
  scanned : Nat
  escalated : Nat
  warnings : List String
  deriving Repr, DecidableEq

/-- `AgentService.monitorSLA()` (part_006, lines 54-73).  `openTickets`
models the result of `getAllTickets({status:'open'})`; `now` is the single
`Date.now()` read at the start of the sweep (the `new Date().toISOString()`
written into `escalated_at` denotes the same sweep moment). -/
def monitorSLA (now : ℚ) (openTickets : List Ticket) : SlaSweepResult :=
  { tickets := openTickets.map (slaStep now)
    scanned := openTickets.length
    escalated := (openTickets.filter (escalCond now)).length
    warnings := [] }

/-- An access request row as `scanAccessRequests` sees it. -/
structure AccessRequest where
  id : Nat
  resource_name : String
  justification : String
  status : String
  approver : Option String
  decision_reason : Option String
  deriving Repr, DecidableEq

/-- `this.config.lowRiskResources` (constructor default). -/
def lowRiskResources : List String :=
  ["Slack", "Confluence", "Figma", "Notion", "Jira-Viewer"]

/-- `lowRisk`: `this.config.lowRiskResources.includes(resource)` on the
trimmed resource name (JS `Array.includes` is exact equality). -/
def isLowRiskListed (req : AccessRequest) : Bool :=
  lowRiskResources.contains (strTrim req.resource_name)

/-- `safeWords`: `/routine|standard|daily|team|collaboration/` tested on the
lowercased justification — at least one routine-use marker term occurs. -/
def hasSafeWords (req : AccessRequest) : Bool :=
  ["routine", "standard", "daily", "team", "collaboration"].any
    (fun w => strIncludes (strLower req.justification) w)

/-- One iteration of the `scanAccessRequests` loop: the auto-approval
`UPDATE` fires exactly when both `lowRisk` and `safeWords` hold. -/
def scanStep (req : AccessRequest) : AccessRequest :=
  if isLowRiskListed req && hasSafeWords req then
    { req with
      status := "approved"
      approver := some "auto-agent"
      decision_reason := some "low-risk auto approval" }
  else req

/-- Result of `AgentService.scanAccessRequests()` (part_006, lines 37-52)
over the pending requests. -/
structure ScanResult where
  requests : List AccessRequest
  scanned : Nat
  approved : Nat
  deriving Repr, DecidableEq

def scanAccessRequests (pending : List AccessRequest) : ScanResult :=
  { requests := pending.map scanStep
    scanned := pending.length
    approved := (pending.filter (fun r => isLowRiskListed r && hasSafeWords r)).length }

/-! ## assessAccessRisk (src/unnamed/part_001, lines 865-887) -/

/-- The `lowRiskResources` array of `assessAccessRisk` (distinct from the
`AgentService` config list). -/
def assessLowRiskList : List String :=
  ["figma", "canva", "notion", "slack", "zoom", "teams",
   "office365", "google workspace", "confluence", "jira",
   "trello", "asana", "monday.com"]

/-- The `highRiskResources` array of `assessAccessRisk`. -/
def assessHighRiskList : List String :=
  ["aws", "azure", "gcp", "production", "database",
   "admin", "root", "billing", "payroll", "financial"]

/-- `resourceLower.includes(r)` for some entry of the low-risk list. -/
def matchesLowRisk (resource : String) : Bool :=
  assessLowRiskList.any (fun r => strIncludes (strLower resource) r)

/-- `resourceLower.includes(r)` for some entry of the high-risk list. -/
def matchesHighRisk (resource : String) : Bool :=
  assessHighRiskList.any (fun r => strIncludes (strLower resource) r)

/-- `assessAccessRisk(resource)`: low list first, then high list, default
`'medium'`. -/
def assessAccessRisk (resource : String) : String :=
  if matchesLowRisk resource then "low"
  else if matchesHighRisk resource then "high"
  else "medium"

/-- A concrete handler whose `run` succeeds (used to exercise the
coordinator theorems on a concrete selection). -/
def okAgentW : Agent :=
  { name := "PrimaryAgent"
    canHandle := fun _ _ => true
    run := fun _ _ => Except.ok "handled" }

/-- A concrete handler whose `run` always throws. -/
def errAgentW : Agent :=
  { name := "SecondaryAgent"
    canHandle := fun _ _ => true
    run := fun _ _ => Except.error "boom" }

/-! # Theorems -/

/-- C7: risk assessment checks the lowercased resource name against the
low-risk list first, then the high-risk list, and returns `"medium"` when
neither matches; `assessAccessRisk "AWS" = "high"` and
`assessAccessRisk "Figma" = "low"`. -/
theorem assessRisk_low_then_high_then_medium :
    (∀ resource : String,
      (assessAccessRisk resource = "low" ↔ matchesLowRisk resource = true) ∧
      (assessAccessRisk resource = "high" ↔
        matchesLowRisk resource = false ∧ matchesHighRisk resource = true) ∧
      (assessAccessRisk resource = "medium" ↔
        matchesLowRisk resource = false ∧ matchesHighRisk resource = false)) ∧
    assessAccessRisk "AWS" = "high" ∧ assessAccessRisk "Figma" = "low" := by
  refine ⟨?_, by decide, by decide⟩
  intro resource
  by_cases hl : matchesLowRisk resource <;> by_cases hh : matchesHighRisk resource <;>
    simp [assessAccessRisk, hl, hh]

/-- C6: the pending-request scan auto-approves a request only when the
trimmed resource name is on the low-risk list and the justification contains
a routine-use marker term; a listed low-risk resource with "routine" in the
justification is approved, and a request for the (high-risk) resource "AWS"
is never auto-approved, whatever its justification says. -/
theorem autoApprove_low_risk_and_marker_only :
    (∀ req : AccessRequest,
      (isLowRiskListed req = false ∨ hasSafeWords req = false) → scanStep req = req) ∧
    scanStep ⟨0, "Figma", "routine access for design work", "pending", none, none⟩ =
      ⟨0, "Figma", "routine access for design work", "approved", some "auto-agent",
        some "low-risk auto approval"⟩ ∧
    (∀ justification : String,
      scanStep ⟨1, "AWS", justification, "pending", none, none⟩ =
        ⟨1, "AWS", justification, "pending", none, none⟩) ∧
    (∀ pending : List AccessRequest,
      (scanAccessRequests pending).requests = pending.map scanStep ∧
      (scanAccessRequests pending).scanned = pending.length) := by
  have haws : isLowRiskListed ⟨1, "AWS", "", "pending", none, none⟩ = false := by decide
  refine ⟨?_, by decide, ?_, fun pending => ⟨rfl, rfl⟩⟩
  · intro req h
    rcases h with h | h <;> simp [scanStep, h]
  · intro justification
    have h : isLowRiskListed ⟨1, "AWS", justification, "pending", none, none⟩ = false := haws
    simp [scanStep, h]

/-- Witness for `autoApprove_low_risk_and_marker_only`: a pending request for
the high-risk resource "Payroll-System" (not on the low-risk list) is left
untouched by the scan. -/
theorem autoApprove_low_risk_and_marker_only_witness :
    scanStep ⟨2, "Payroll-System", "routine", "pending", none, none⟩ =
      ⟨2, "Payroll-System", "routine", "pending", none, none⟩ :=
  autoApprove_low_risk_and_marker_only.1
    ⟨2, "Payroll-System", "routine", "pending", none, none⟩ (Or.inl (by decide))

/-- C10: the analytics aggregate never divides by zero — an empty history
yields the bare `{total: 0}` report with no mean execution time and no
success rate, and a non-empty history computes both aggregates with the
positive denominator `history.length`. -/
theorem routingAnalytics_no_division_by_zero :
    getRoutingAnalytics [] = ⟨0, none, none, none, none⟩ ∧
    (∀ history : List LogEntry, history ≠ [] →
      0 < history.length ∧
      (getRoutingAnalytics history).total = history.length ∧
      (getRoutingAnalytics history).avgExecutionTime =
        some (sumExecTime history / (history.length : ℚ)) ∧
      (getRoutingAnalytics history).successRate =
        some ((successCount history : ℚ) / (history.length : ℚ))) := by
  refine ⟨rfl, ?_⟩
  intro history h
  have hlen : history.length ≠ 0 := by simpa using h
  exact ⟨Nat.pos_of_ne_zero hlen, by simp [getRoutingAnalytics, hlen],
    by simp [getRoutingAnalytics, hlen], by simp [getRoutingAnalytics, hlen]⟩

/-- Witness for `routingAnalytics_no_division_by_zero`: a one-entry history
has a positive denominator and both aggregates present. -/
theorem routingAnalytics_no_division_by_zero_witness :
    0 < ([⟨"ping", [], 5⟩] : List LogEntry).length ∧
    (getRoutingAnalytics [⟨"ping", [], 5⟩]).avgExecutionTime =
      some (sumExecTime [⟨"ping", [], 5⟩] / (([⟨"ping", [], 5⟩] : List LogEntry).length : ℚ)) :=
  ⟨(routingAnalytics_no_division_by_zero.2 [⟨"ping", [], 5⟩] (by simp)).1,
   (routingAnalytics_no_division_by_zero.2 [⟨"ping", [], 5⟩] (by simp)).2.2.1⟩

/-- C1: with the default configuration (threshold 0.7, `maxAgents` 2) the
routing decision's selection is never empty and never longer than 2, for any
registered agents, input and context; whenever no capable agent meets the
threshold the selection is exactly the designated fallback agent, and the
designated fallback of the triage router is an `ITSupportAgent`. -/
theorem routing_selection_nonempty_bounded
    (agents : List Agent) (fallback : Agent) (input : String) (ctx : Context) :
    (1 ≤ ((analyzeRouting agents fallback defaultRouterConfig input ctx).agents).length ∧
     ((analyzeRouting agents fallback defaultRouterConfig input ctx).agents).length ≤ 2 ∧
     triageFallback.name = "ITSupportAgent") ∧
    (agents.filter (survives defaultRouterConfig input ctx) = [] →
      (analyzeRouting agents fallback defaultRouterConfig input ctx).agents = [fallback]) := by
  set cands := (agents.filter (survives defaultRouterConfig input ctx)).map
      (fun a => (⟨a, calculateConfidence a.name input ctx,
        getRoutingReasoning a input ctx⟩ : Candidate)) with hcands
  set sorted := cands.insertionSort (fun x y => y.confidence ≤ x.confidence) with hsorted
  set selected := (sorted.take 2).map (·.agent) with hselected
  have hagents : (analyzeRouting agents fallback defaultRouterConfig input ctx).agents =
      if selected.isEmpty then [fallback] else selected := rfl
  constructor
  · rw [hagents]
    by_cases hemp : selected.isEmpty
    · rw [if_pos hemp]
      exact ⟨by simp, by simp, rfl⟩
    · rw [if_neg hemp]
      have hne : selected ≠ [] := by
        simpa [List.isEmpty_iff] using hemp
      have hpos : 0 < selected.length := List.length_pos.mpr hne
      refine ⟨hpos, ?_, rfl⟩
      rw [hselected, List.length_map, List.length_take]
      omega
  · intro hfilt
    have hc : cands = [] := by rw [hcands, hfilt]; rfl
    have hs : sorted = [] := by rw [hsorted, hc]; rfl
    have hsel : selected = [] := by rw [hselected, hs]; rfl
    rw [hagents, hsel]
    rfl

/-- Witness for `routing_selection_nonempty_bounded`: with no registered
agents at all, the selection is exactly the designated fallback. -/
theorem routing_selection_nonempty_bounded_witness :
    (analyzeRouting [] triageFallback defaultRouterConfig "" {}).agents =
      [triageFallback] ∧
    1 ≤ ((analyzeRouting [] triageFallback defaultRouterConfig "" {}).agents).length :=
  ⟨(routing_selection_nonempty_bounded [] triageFallback "" {}).2 rfl,
   (routing_selection_nonempty_bounded [] triageFallback "" {}).1.1⟩

/-- C8 counterexample: for the input "urgent critical emergency outage"
(four escalation keyword matches) the unclamped escalation-agent confidence
already exceeds 1 under medium priority, so `Math.min(·, 1.0)` makes the
high-priority confidence *equal* to the medium-priority one instead of
strictly greater. -/
theorem escalation_confidence_not_strictly_monotone :
    calculateConfidence "EscalationAgent" "urgent critical emergency outage"
        { priority := some "high" } =
      calculateConfidence "EscalationAgent" "urgent critical emergency outage"
        { priority := some "medium" } := by
  have hk : countKeywordMatches "EscalationAgent" "urgent critical emergency outage" = 4 :=
    by decide
  simp [calculateConfidence, hk, getHistoricalSuccess]
  norm_num [min_def]

/-- C8 amended: under high context priority the escalation agent's computed
confidence is at least its medium-priority confidence, strictly greater
whenever the medium-priority confidence is below the 1.0 cap, and both equal
1.0 when the cap is reached. -/
theorem escalation_confidence_monotone (input : String) (ctx : Context) :
    calculateConfidence "EscalationAgent" input { ctx with priority := some "medium" } ≤
      calculateConfidence "EscalationAgent" input { ctx with priority := some "high" } ∧
    (calculateConfidence "EscalationAgent" input { ctx with priority := some "medium" } < 1 →
      calculateConfidence "EscalationAgent" input { ctx with priority := some "medium" } <
        calculateConfidence "EscalationAgent" input { ctx with priority := some "high" }) ∧
    (calculateConfidence "EscalationAgent" input { ctx with priority := some "medium" } = 1 →
      calculateConfidence "EscalationAgent" input { ctx with priority := some "high" } = 1) := by
  have hm : calculateConfidence "EscalationAgent" input { ctx with priority := some "medium" } =
      min (0.5 + (countKeywordMatches "EscalationAgent" input : ℚ) * 0.1 +
        getHistoricalSuccess "EscalationAgent" * 0.2) 1 := by
    simp [calculateConfidence]
  have hh : calculateConfidence "EscalationAgent" input { ctx with priority := some "high" } =
      min ((0.5 + (countKeywordMatches "EscalationAgent" input : ℚ) * 0.1 +
        getHistoricalSuccess "EscalationAgent" * 0.2) + 0.3) 1 := by
    simp [calculateConfidence]
    ring_nf
  rw [hm, hh]
  set B : ℚ := 0.5 + (countKeywordMatches "EscalationAgent" input : ℚ) * 0.1 +
    getHistoricalSuccess "EscalationAgent" * 0.2 with hB
  clear_value B
  refine ⟨min_le_min (by linarith) le_rfl, ?_, ?_⟩
  · intro hlt
    rcases le_or_lt 1 B with hb | hb
    · rw [min_eq_right hb] at hlt
      exact absurd hlt (lt_irrefl 1)
    · rw [min_eq_left hb.le]
      exact lt_min (by linarith) hb
  · intro heq
    rcases le_or_lt 1 B with hb | hb
    · exact min_eq_right (by linarith)
    · rw [min_eq_left hb.le] at heq
      linarith

/-- Witness for `escalation_confidence_monotone`: on the keyword-free input
"hello" the medium-priority confidence (0.684) is below the cap, and high
priority strictly raises it. -/
theorem escalation_confidence_monotone_witness :
    calculateConfidence "EscalationAgent" "hello" { priority := some "medium" } < 1 ∧
    calculateConfidence "EscalationAgent" "hello" { priority := some "medium" } <
      calculateConfidence "EscalationAgent" "hello" { priority := some "high" } := by
  have hk : countKeywordMatches "EscalationAgent" "hello" = 0 := by decide
  have hlt : calculateConfidence "EscalationAgent" "hello" { priority := some "medium" } < 1 := by
    simp [calculateConfidence, hk, getHistoricalSuccess]
    norm_num [min_def]
  exact ⟨hlt, (escalation_confidence_monotone "hello" {}).2.1 hlt⟩

/-- After one sweep iteration a ticket can never satisfy the escalation
condition again at the same sweep time: escalation writes `escalated_at` and
a positive `escalation_level`, falsifying the guard. -/
theorem escalCond_after_step (now : ℚ) (t : Ticket) :
    escalCond now (slaStep now t) = false := by
  by_cases h : escalCond now t = true
  · have hstep : slaStep now t = escalateUpdate now t := by
      simp [slaStep, h]
    rw [hstep]
    simp [escalCond, escalateUpdate]
  · simp only [Bool.not_eq_true] at h
    simp [slaStep, h]

/-- One sweep iteration is idempotent at a fixed sweep time. -/
theorem slaStep_idem (now : ℚ) (t : Ticket) :
    slaStep now (slaStep now t) = slaStep now t := by
  have h := escalCond_after_step now t
  rw [show slaStep now (slaStep now t) =
      (if escalCond now (slaStep now t) then escalateUpdate now (slaStep now t)
       else slaStep now t) from rfl, h]
  simp

/-- C4: an open work item whose age exceeds its priority's SLA threshold and
whose escalation level is 0 is escalated to level 1 with `escalated_at` set
and status kept `"open"`, and its priority is bumped exactly when it was
`"medium"`; in particular an open high-priority item created 5 hours before
a sweep under the 4-hour high threshold ends at level 1, still open, still
high. -/
theorem sla_escalation_transition (now created : ℚ) (t : Ticket)
    (_hopen : t.status = "open")
    (hcreated : t.created_at = some created)
    (hage : slaFor t.priority < (now - created) / 3600000)
    (hlevel : t.escalation_level = some 0) :
    slaStep now t =
      { t with
        escalation_level := some 1
        escalated_at := some now
        priority := if t.priority = "medium" then "high" else t.priority
        status := "open" } ∧
    slaStep now ⟨t.id, "high", "open", some (now - 18000000), some 0, none⟩ =
      ⟨t.id, "high", "open", some (now - 18000000), some 1, some now⟩ := by
  constructor
  · have hcond : escalCond now t = true := by
      simp [escalCond, hcreated, hlevel, hage]
    simp [slaStep, hcond, escalateUpdate, hlevel]
  · have hcond : escalCond now
        ⟨t.id, "high", "open", some (now - 18000000), some 0, none⟩ = true := by
      simp [escalCond, show slaFor "high" = (4 : ℚ) from rfl]
      norm_num
    simp [slaStep, hcond, escalateUpdate]

/-- Witness for `sla_escalation_transition`: concrete 5-hour-old open
high-priority ticket at sweep time 36000000 ms. -/
theorem sla_escalation_transition_witness :
    (⟨7, "high", "open", some 18000000, some 0, none⟩ : Ticket).status = "open" ∧
    slaStep 36000000 ⟨7, "high", "open", some 18000000, some 0, none⟩ =
      ⟨7, "high", "open", some 18000000, some 1, some 36000000⟩ := by
  have h := sla_escalation_transition 36000000 18000000
      ⟨7, "high", "open", some 18000000, some 0, none⟩ rfl rfl
      (by norm_num [show slaFor "high" = (4 : ℚ) from rfl]) rfl
  exact ⟨rfl, by simpa using h.1⟩

/-- C3 counterexample: a ticket with `escalation_level = 1` but no
`escalated_at` *is* escalated by the sweep (to level 2), because the actual
guard is `!escalated_at || escalation_level === 0`, not
`escalation_level == 0` alone. -/
theorem sla_sweep_escalates_nonzero_level :
    (monitorSLA 36000000 [⟨0, "high", "open", some 0, some 1, none⟩]).tickets =
      [⟨0, "high", "open", some 0, some 2, some 36000000⟩] ∧
    (⟨0, "high", "open", some 0, some 1, none⟩ : Ticket).escalation_level ≠ some 0 := by
  have hcond : escalCond 36000000 ⟨0, "high", "open", some 0, some 1, none⟩ = true := by
    simp [escalCond, show slaFor "high" = (4 : ℚ) from rfl]
    norm_num
  exact ⟨by simp [monitorSLA, slaStep, hcond, escalateUpdate], by simp⟩

/-- C3 amended: the sweep is idempotent — running it twice at the same sweep
time changes nothing the second time and escalates nothing the second time,
so each item's escalation level rises by at most 1 in total (by exactly 1
for items the first run escalates).  The guard that enforces this is
`!escalated_at || escalation_level === 0`: the first escalation writes
`escalated_at` (and a positive level), falsifying it. -/
theorem sla_sweep_idempotent (now : ℚ) (ts : List Ticket) :
    (monitorSLA now (monitorSLA now ts).tickets).tickets = (monitorSLA now ts).tickets ∧
    (monitorSLA now (monitorSLA now ts).tickets).escalated = 0 ∧
    List.Forall₂ (fun t u =>
        u.escalation_level = t.escalation_level ∨
        u.escalation_level = some (t.escalation_level.getD 0 + 1))
      ts (monitorSLA now ts).tickets := by
  refine ⟨?_, ?_, ?_⟩
  · have hmap : ∀ l : List Ticket,
        (l.map (slaStep now)).map (slaStep now) = l.map (slaStep now) := by
      intro l
      induction l with
      | nil => rfl
      | cons t rest ih => simp [ih, slaStep_idem]
    simpa [monitorSLA] using hmap ts
  · have hfilt : ∀ l : List Ticket,
        (l.map (slaStep now)).filter (escalCond now) = [] := by
      intro l
      induction l with
      | nil => rfl
      | cons t rest ih => simp [List.filter_cons, escalCond_after_step, ih]
    simp [monitorSLA, hfilt ts]
  · induction ts with
    | nil => simp [monitorSLA]
    | cons t rest ih =>
      simp only [monitorSLA, List.map_cons] at ih ⊢
      refine List.Forall₂.cons ?_ ih
      by_cases h : escalCond now t = true
      · right
        simp [slaStep, h, escalateUpdate]
      · left
        simp only [Bool.not_eq_true] at h
        simp [slaStep, h]

/-- C9 counterexample: the sweep logs no warning at all for a record whose
`created_at` does not parse — it is skipped silently (the NaN age fails the
threshold comparison) while the surrounding records are still escalated. -/
theorem sla_sweep_malformed_no_warning :
    (monitorSLA 108000000
      [⟨0, "high", "open", some 0, some 0, none⟩,
       ⟨1, "high", "open", none, some 0, none⟩,
       ⟨2, "medium", "open", some 0, some 0, none⟩]).warnings = [] ∧
    (monitorSLA 108000000
      [⟨0, "high", "open", some 0, some 0, none⟩,
       ⟨1, "high", "open", none, some 0, none⟩,
       ⟨2, "medium", "open", some 0, some 0, none⟩]).tickets =
      [⟨0, "high", "open", some 0, some 1, some 108000000⟩,
       ⟨1, "high", "open", none, some 0, none⟩,
       ⟨2, "high", "open", some 0, some 1, some 108000000⟩] := by
  have hc0 : escalCond 108000000 ⟨0, "high", "open", some 0, some 0, none⟩ = true := by
    simp [escalCond, show slaFor "high" = (4 : ℚ) from rfl]
    norm_num
  have hc1 : escalCond 108000000 ⟨1, "high", "open", none, some 0, none⟩ = false := by
    simp [escalCond]
  have hc2 : escalCond 108000000 ⟨2, "medium", "open", some 0, some 0, none⟩ = true := by
    simp [escalCond, show slaFor "medium" = (24 : ℚ) from rfl]
    norm_num
  exact ⟨rfl, by simp [monitorSLA, slaStep, hc0, hc1, hc2, escalateUpdate]⟩

/-- C9 amended: a record with an unparseable `created_at` is skipped
*silently* (no warning is logged — the sweep logs nothing), it is never
escalated, and its presence anywhere in the collection does not disturb how
the records around it are processed: the sweep never throws or aborts. -/
theorem sla_sweep_skips_malformed (now : ℚ) (ts1 ts2 : List Ticket) (b : Ticket)
    (hb : b.created_at = none) :
    (monitorSLA now (ts1 ++ b :: ts2)).tickets =
      (monitorSLA now ts1).tickets ++ b :: (monitorSLA now ts2).tickets ∧
    (monitorSLA now (ts1 ++ b :: ts2)).warnings = [] ∧
    (monitorSLA now (ts1 ++ b :: ts2)).scanned = ts1.length + 1 + ts2.length ∧
    slaStep now b = b := by
  have hcond : escalCond now b = false := by
    simp [escalCond, hb]
  have hstep : slaStep now b = b := by
    simp [slaStep, hcond]
  refine ⟨?_, rfl, ?_, hstep⟩
  · simp [monitorSLA, hstep]
  · simp [monitorSLA]
    omega

/-- Witness for `sla_sweep_skips_malformed`: a sweep over exactly one
malformed record leaves it untouched and logs nothing. -/
theorem sla_sweep_skips_malformed_witness :
    (monitorSLA 0 [⟨1, "high", "open", none, some 0, none⟩]).tickets =
      [⟨1, "high", "open", none, some 0, none⟩] ∧
    (monitorSLA 0 [⟨1, "high", "open", none, some 0, none⟩]).warnings = [] := by
  have h := sla_sweep_skips_malformed 0 [] [] ⟨1, "high", "open", none, some 0, none⟩ rfl
  exact ⟨by simpa [monitorSLA] using h.1, h.2.1⟩

/-- The spec-side selection never produces a negative confidence: it is
either the unknown baseline or a strictly positive winning score. -/
theorem detectSpec_unknown_or_pos (message : String) :
    ∀ intents : List IntentDef,
      detectSpec intents message = ⟨"unknown", 0, none⟩ ∨
      0 < (detectSpec intents message).confidence := by
  intro intents
  induction intents with
  | nil => exact Or.inl rfl
  | cons d rest ih =>
    by_cases h : (detectSpec rest message).confidence ≤ intentScore d message ∧
        0 < intentScore d message
    · right
      simp only [detectSpec, if_pos h]
      exact h.2
    · simp only [detectSpec, if_neg h]
      exact ih

theorem detectSpec_nonneg (message : String) (intents : List IntentDef) :
    0 ≤ (detectSpec intents message).confidence := by
  rcases detectSpec_unknown_or_pos message intents with h | h
  · rw [h]
  · exact le_of_lt h

theorem detectSpec_zero_eq (message : String) (intents : List IntentDef)
    (h : (detectSpec intents message).confidence ≤ 0) :
    detectSpec intents message = ⟨"unknown", 0, none⟩ := by
  rcases detectSpec_unknown_or_pos message intents with h' | h'
  · exact h'
  · exact absurd h (not_le.mpr h')

/-- Characterization of the `detect` fold: starting from any accumulator
with non-negative confidence, the fold returns the accumulator unless the
spec-side winner strictly beats it. -/
theorem detect_foldl_eq (message : String) :
    ∀ (intents : List IntentDef) (b : BestMatch), 0 ≤ b.confidence →
      intents.foldl (detectUpd message) b =
        if (detectSpec intents message).confidence ≤ b.confidence then b
        else detectSpec intents message := by
  intro intents
  induction intents with
  | nil =>
    intro b hb
    simp only [List.foldl_nil, detectSpec]
    rw [if_pos hb]
  | cons d rest ih =>
    intro b hb
    simp only [List.foldl_cons]
    by_cases hcase : b.confidence < intentScore d message
    · have hupd : detectUpd message b d =
          ⟨d.name, intentScore d message, intentEntity d message⟩ := by
        simp [detectUpd, hcase]
      have hspos : 0 < intentScore d message := lt_of_le_of_lt hb hcase
      rw [hupd, ih _ (le_of_lt hspos)]
      dsimp only
      by_cases hrs : (detectSpec rest message).confidence ≤ intentScore d message
      · rw [if_pos hrs]
        have hspec : detectSpec (d :: rest) message =
            ⟨d.name, intentScore d message, intentEntity d message⟩ := by
          simp only [detectSpec]
          rw [if_pos (And.intro hrs hspos)]
        rw [hspec]
        dsimp only
        rw [if_neg (not_le.mpr hcase)]
      · rw [if_neg hrs]
        have hspec : detectSpec (d :: rest) message = detectSpec rest message := by
          simp only [detectSpec]
          rw [if_neg (fun hc => hrs hc.1)]
        rw [hspec]
        rw [if_neg (not_le.mpr (lt_trans hcase (not_le.mp hrs)))]
    · have hupd : detectUpd message b d = b := by
        simp [detectUpd, hcase]
      have hsb : intentScore d message ≤ b.confidence := not_lt.mp hcase
      rw [hupd, ih _ hb]
      by_cases h2 : (detectSpec rest message).confidence ≤ intentScore d message ∧
          0 < intentScore d message
      · have hspec : detectSpec (d :: rest) message =
            ⟨d.name, intentScore d message, intentEntity d message⟩ := by
          simp only [detectSpec]
          rw [if_pos h2]
        rw [hspec]
        dsimp only
        rw [if_pos (le_trans h2.1 hsb), if_pos hsb]
      · have hspec : detectSpec (d :: rest) message = detectSpec rest message := by
          simp only [detectSpec]
          rw [if_neg h2]
        rw [hspec]

/-- Every intent whose keywords are all absent from the text and whose
patterns all fail scores exactly 0. -/
theorem intentScore_zero_of_no_match (message : String) (d : IntentDef)
    (hkw : ∀ kw ∈ d.keywords, strIncludes (strLower message) (strLower kw) = false)
    (hpat : firstPatternMatch d.patterns message = none) :
    intentScore d message = 0 := by
  have hfilter : d.keywords.filter (fun kw => strIncludes (strLower message) (strLower kw)) = [] := by
    rw [List.filter_eq_nil_iff]
    intro kw hmem
    simp [hkw kw hmem]
  simp [intentScore, hfilter, hpat]

theorem detectSpec_all_zero (message : String) :
    ∀ intents : List IntentDef, (∀ d ∈ intents, intentScore d message = 0) →
      detectSpec intents message = ⟨"unknown", 0, none⟩ := by
  intro intents
  induction intents with
  | nil => intro _; rfl
  | cons d rest ih =>
    intro h
    have hd : intentScore d message = 0 := h d (by simp)
    have hrest : detectSpec rest message = ⟨"unknown", 0, none⟩ :=
      ih (fun d' hd' => h d' (by simp [hd']))
    simp [detectSpec, hrest, hd]

/-- C2: `detect` computes, for each intent definition in author-defined
order, `keywordScore = (#keywords present in the lowered text / #keywords) ×
0.4`, adds `0.6` on the first matching pattern (whose first capture group,
if truthy, is trimmed into the extracted entity; later patterns are not
tried), multiplies by the intent's base confidence weight, and returns the
intent with the maximum total with ties broken in favor of the earlier
definition (`detectSpec`, written from the claim); a message matching no
keyword and no pattern of any intent yields `"unknown"` with confidence 0
and no entity. -/
theorem detect_implements_spec (intents : List IntentDef) (message : String) :
    detect intents message = detectSpec intents message ∧
    ((∀ d ∈ intents,
        (∀ kw ∈ d.keywords, strIncludes (strLower message) (strLower kw) = false) ∧
        firstPatternMatch d.patterns message = none) →
      detect intents message = ⟨"unknown", 0, none⟩) := by
  have hmain : detect intents message = detectSpec intents message := by
    rw [detect, detect_foldl_eq message intents ⟨"unknown", 0, none⟩ le_rfl]
    by_cases h : (detectSpec intents message).confidence ≤ (⟨"unknown", 0, none⟩ : BestMatch).confidence
    · rw [if_pos h, detectSpec_zero_eq message intents h]
    · rw [if_neg h]
  refine ⟨hmain, fun hnone => ?_⟩
  rw [hmain]
  exact detectSpec_all_zero message intents
    (fun d hd => intentScore_zero_of_no_match message d (hnone d hd).1 (hnone d hd).2)

/-- Witness for `detect_implements_spec`: a one-intent table and the
non-matching message "xyz" yield the unknown result. -/
theorem detect_implements_spec_witness :
    detect [⟨"greeting", ["hello"], [], 0.9⟩] "xyz" = ⟨"unknown", 0, none⟩ := by
  have hhyp : ∀ d ∈ ([⟨"greeting", ["hello"], [], 0.9⟩] : List IntentDef),
      (∀ kw ∈ d.keywords, strIncludes (strLower "xyz") (strLower kw) = false) ∧
      firstPatternMatch d.patterns "xyz" = none := by
    intro d hd
    rw [List.mem_singleton] at hd
    subst hd
    refine ⟨?_, rfl⟩
    intro kw hkw
    rw [List.mem_singleton] at hkw
    subst hkw
    decide
  exact (detect_implements_spec [⟨"greeting", ["hello"], [], 0.9⟩] "xyz").2 hhyp

theorem fillSlots_getElem (jobs : List α) :
    ∀ (order : List Nat) (slots : List (Option α)) (i : Nat),
      (fillSlots jobs slots order)[i]? =
        if i ∈ order ∧ i < slots.length then some jobs[i]? else slots[i]? := by
  intro order
  induction order with
  | nil =>
    intro slots i
    simp [fillSlots]
  | cons j rest ih =>
    intro slots i
    rw [show fillSlots jobs slots (j :: rest) =
        fillSlots jobs (slots.set j jobs[j]?) rest from rfl, ih, List.length_set]
    by_cases hmem : i ∈ rest
    · by_cases hlen : i < slots.length
      · rw [if_pos ⟨hmem, hlen⟩, if_pos ⟨List.mem_cons_of_mem j hmem, hlen⟩]
      · rw [if_neg (fun hc => hlen hc.2), if_neg (fun hc => hlen hc.2)]
        rw [List.getElem?_eq_none (by simpa [List.length_set] using Nat.le_of_not_lt hlen),
          List.getElem?_eq_none (Nat.le_of_not_lt hlen)]
    · rw [if_neg (fun hc => hmem hc.1)]
      rcases eq_or_ne j i with hj | hj
      · subst hj
        by_cases hlen : j < slots.length
        · rw [if_pos ⟨List.mem_cons_self j rest, hlen⟩,
            List.getElem?_set_eq_of_lt jobs[j]? hlen]
        · rw [if_neg (fun hc => hlen hc.2),
            List.getElem?_eq_none (by simpa [List.length_set] using Nat.le_of_not_lt hlen),
            List.getElem?_eq_none (Nat.le_of_not_lt hlen)]
      · rw [List.getElem?_set_ne hj]
        rw [if_neg ?_]
        intro hc
        rcases List.mem_cons.mp hc.1 with h | h
        · exact hj h.symm
        · exact hmem h

/-- Once every index has settled, the slots hold exactly the jobs. -/
theorem fillSlots_complete (jobs : List α) (order : List Nat)
    (hperm : order.Perm (List.range jobs.length)) :
    fillSlots jobs (List.replicate jobs.length none) order = jobs.map some := by
  apply List.ext_getElem?
  intro i
  rw [fillSlots_getElem, List.length_replicate]
  by_cases h : i < jobs.length
  · have hmem : i ∈ order := hperm.mem_iff.mpr (List.mem_range.mpr h)
    rw [if_pos ⟨hmem, h⟩, List.getElem?_eq_getElem h]
    simp [List.getElem?_map, List.getElem?_eq_getElem h]
  · rw [if_neg (fun hc => h hc.2),
      List.getElem?_eq_none (by simpa using Nat.le_of_not_lt h),
      List.getElem?_eq_none (by simpa using Nat.le_of_not_lt h)]

theorem seqOptions_map_some (l : List α) : seqOptions (l.map some) = some l := by
  induction l with
  | nil => rfl
  | cons a rest ih => simp [seqOptions, ih]

/-- `Promise.all` returns the settled values in index order whenever the
completion order settles every job exactly once, whatever that order is. -/
theorem promiseAll_completion_order_independent (jobs : List α) (order : List Nat)
    (hperm : order.Perm (List.range jobs.length)) :
    promiseAll jobs order = some jobs := by
  rw [promiseAll, fillSlots_complete jobs order hperm, seqOptions_map_some]

theorem forall₂_map_self (f : α → β) (r : α → β → Prop) (l : List α)
    (h : ∀ a ∈ l, r a (f a)) : List.Forall₂ r l (l.map f) := by
  induction l with
  | nil => constructor
  | cons a rest ih =>
    exact List.Forall₂.cons (h a (by simp)) (ih (fun a' ha' => h a' (by simp [ha'])))

theorem baseExecute_agent (a : Agent) (input : String) (c : Context) :
    (baseExecute a input c).agent = a.name := by
  cases h : a.run input (mergeCtx a.context c) <;> simp [baseExecute, h]

theorem baseExecute_captures_error (a : Agent) (input : String) (c : Context) (e : String)
    (h : ∀ c₀, a.run input c₀ = Except.error e) :
    (baseExecute a input c).success = false ∧ (baseExecute a input c).error = some e := by
  simp [baseExecute, h (mergeCtx a.context c)]

/-- C5: for a selection of at least two handlers, the coordinator returns
one result per selected handler, in selection order with the primary's
result first, independently of the completion order of the secondary
invocations (`Promise.all` reassembles by index); a handler whose `run`
throws is captured as its own `{success:false, error}` entry without
removing any sibling entry; and the overall `route` call reports failure
only if every handler failed (it in fact always reports success, since
`BaseAgent.execute` captures every handler exception). -/
theorem multiAgent_order_and_isolation (agents : List Agent) (input : String)
    (ctx : Context) (order : List Nat)
    (hlen : 2 ≤ agents.length)
    (horder : order.Perm (List.range (agents.length - 1))) :
    executeMultiAgentSched agents input ctx order =
      some (executeMultiAgent agents input ctx) ∧
    (executeMultiAgent agents input ctx).length = agents.length ∧
    (executeMultiAgent agents input ctx).head? =
      agents.head?.map (fun p => baseExecute p input ctx) ∧
    List.Forall₂ (fun a r => r.agent = a.name) agents
      (executeMultiAgent agents input ctx) ∧
    List.Forall₂ (fun a r => ∀ e, (∀ c, a.run input c = Except.error e) →
        r.success = false ∧ r.error = some e) agents
      (executeMultiAgent agents input ctx) ∧
    (∀ router : Router, ∀ txt c, (route router txt c).success = false →
      ∀ x ∈ (route router txt c).results, x.success = false) := by
  obtain ⟨p, rest, rfl⟩ : ∃ p rest, agents = p :: rest := by
    cases agents with
    | nil => simp at hlen
    | cons p rest => exact ⟨p, rest, rfl⟩
  have hperm : order.Perm (List.range
      ((rest.map (fun a => baseExecute a input
        (enrichContext ctx (baseExecute p input ctx)))).length)) := by
    simpa using horder
  refine ⟨?_, by simp [executeMultiAgent], rfl, ?_, ?_, ?_⟩
  · rw [show executeMultiAgentSched (p :: rest) input ctx order =
        (promiseAll (rest.map (fun a => baseExecute a input
          (enrichContext ctx (baseExecute p input ctx)))) order).map
          (fun secondary => baseExecute p input ctx :: secondary) from rfl,
      promiseAll_completion_order_independent _ order hperm]
    rfl
  · exact List.Forall₂.cons (baseExecute_agent p input ctx)
      (forall₂_map_self _ _ rest (fun a _ => baseExecute_agent a input _))
  · exact List.Forall₂.cons
      (fun e he => baseExecute_captures_error p input ctx e he)
      (forall₂_map_self _ _ rest (fun a _ => fun e he =>
        baseExecute_captures_error a input _ e he))
  · intro router txt c hfail
    simp [route] at hfail

/-- Witness for `multiAgent_order_and_isolation`: a two-handler selection
whose secondary throws, with the singleton completion order. -/
theorem multiAgent_order_and_isolation_witness :
    executeMultiAgentSched [okAgentW, errAgentW] "ticket" {} [0] =
      some (executeMultiAgent [okAgentW, errAgentW] "ticket" {}) ∧
    (executeMultiAgent [okAgentW, errAgentW] "ticket" {}).length = 2 := by
  have hrange : List.range (([okAgentW, errAgentW] : List Agent).length - 1) = [0] := by
    rfl
  have h := multiAgent_order_and_isolation [okAgentW, errAgentW] "ticket" {} [0]
    (by simp) (by rw [hrange])
  exact ⟨h.1, h.2.1⟩

end ITWorkflow
